import Mathlib

/-!
Verification development for the attendance-management web application
(single source file `main.py`).  The Python handlers are shallowly embedded
as pure Lean functions: the outcome of a remote call to the relational
store is passed in as an `Except String` value (`Except.error e` models the
client raising an exception `e`), server-side session state and form data
are explicit records, and each route handler becomes a function from those
inputs to its observable result (session assignments, redirect target,
rendered rows, issued inserts/deletes).
-/

/-- Model of a response object returned by the store client, as inspected by
`safe_execute` (main.py lines 42-63): either a client object whose `data`
attribute may be `None`, or a plain dict that may or may not carry a
`"data"` key (whose value may itself be `None`). -/
inductive SupaRes (α : Type) where
  | obj (data : Option α)
  | dict (hasDataKey : Bool) (dataVal : Option α)
deriving DecidableEq

/-- The payload extraction performed by `safe_execute`:
`data = getattr(res, "data", None)`, then the dict fallback
`if data is None and isinstance(res, dict) and "data" in res`. -/
def SupaRes.data {α : Type} : SupaRes α → Option α
  | .obj d => d
  | .dict true v => v
  | .dict false _ => none

/-- Embedding of `safe_execute` (main.py lines 27-65).  The argument is the
outcome of running the callable: `Except.error e` models the callable
raising exception `e`; `Except.ok none` models it returning `None`;
`Except.ok (some res)` models it returning response `res`.  The Python
diagnostic dict of extra attributes in the "unexpected format" message is
dropped (it only feeds the log line). -/
def safe_execute {α : Type} (call : Except String (Option (SupaRes α))) :
    Except String (SupaRes α) :=
  match call with
  | .error e => .error ("Supabase request failed: " ++ e)
  | .ok none => .error "Supabase returned None response"
  | .ok (some res) =>
    match SupaRes.data res with
    | none => .error "Supabase returned unexpected format."
    | some _ => .ok res

/-- Embedding of the `ok, res = safe_execute(...); xs = res.data if ok else []`
pattern used by `kelola_jadwal` for units, employees and schedule rows
(main.py lines 265-289); after a success the payload is present, the
`getD []` only collapses the impossible `none`. -/
def fetch_list {α : Type} (call : Except String (Option (SupaRes (List α)))) :
    List α :=
  match safe_execute call with
  | .error _ => []
  | .ok res => (SupaRes.data res).getD []

/-- Record shape returned by the batch lookup `select("id,nama")`:
the `nama` column may be null, modelled as `none`. -/
structure IdNama where
  id : Nat
  nama : Option String
deriving DecidableEq

/-- Embedding of `get_users_by_ids` (main.py lines 67-75): empty id list
short-circuits to the empty mapping, a failed call is logged and returns the
empty mapping, otherwise the mapping id -> nama is built from the rows.
(The Python `u.get("nama", "")` default only fires when the key is missing,
which the fixed `select("id,nama")` never produces, so the value is the
possibly-null `nama` column.) -/
def get_users_by_ids (call : Except String (Option (SupaRes (List IdNama))))
    (id_list : List Nat) : List (Nat × Option String) :=
  if id_list.isEmpty then []
  else
    match safe_execute call with
    | .error _ => []
    | .ok res => ((SupaRes.data res).getD []).map (fun u => (u.id, u.nama))

/-- Python dict lookup `m.get(k)` for a dict built by a comprehension over an
association list: a later binding for the same key overwrites an earlier one,
hence the search over the reversed list. -/
def dictGet {β : Type} (m : List (Nat × β)) (k : Nat) : Option β :=
  (m.reverse.find? (fun q => q.1 == k)).map (fun q => q.2)

-- ---------------------------------------------------------------- data model

/-- Row of the `users` table (`select("*")`); nullable columns are `Option`. -/
structure UserRec where
  id : Nat
  username : Option String
  password : Option String
  role : String
  unit_id : Option Nat
  id_pegawai : Option Nat
  nama : Option String
  nama_lengkap : Option String
  full_name : Option String
deriving DecidableEq

/-- Row of the `jadwal_danton` table.  The `danton_id` column is overloaded
(user id or employee id) and nullable, hence `Option Nat`. -/
structure Jadwal where
  id : Nat
  danton_id : Option Nat
  unit_id : Nat
  tanggal : String
  keterangan : String
deriving DecidableEq

/-- Server-side session fields written by the login handler
(main.py lines 99-142). -/
structure SessionState where
  user_id : Option Nat
  username : Option String
  role : Option String
  unit_id : Option Nat
  id_pegawai : Option Nat
  is_danton_today : Bool
  danton_unit_id : Option Nat
deriving DecidableEq

-- ------------------------------------------------------- danton resolution

/-- SQL equality used by the PostgREST `eq` filter on the nullable
`danton_id` column: a null on either side matches no row (`= NULL` is never
true; filtering with a `None` value cannot select a row either). -/
def sql_eq_opt (col : Option Nat) (v : Option Nat) : Bool :=
  match v with
  | none => false
  | some a =>
    match col with
    | none => false
    | some b => a == b

/-- Scheme 1 query (main.py lines 114-120): schedule rows with
`tanggal = today` and `danton_id` equal to the primary id of the user. -/
def schemeOneQuery (db : List Jadwal) (today : String) (u : UserRec) :
    List Jadwal :=
  db.filter (fun j => j.tanggal == today && sql_eq_opt j.danton_id (some u.id))

/-- Scheme 2 query (main.py lines 123-129): schedule rows with
`tanggal = today` and `danton_id` equal to the linked employee id of the user
(`user.get("id_pegawai")`, possibly absent). -/
def schemeTwoQuery (db : List Jadwal) (today : String) (u : UserRec) :
    List Jadwal :=
  db.filter (fun j => j.tanggal == today && sql_eq_opt j.danton_id u.id_pegawai)

/-- Decision step of the danton check (main.py lines 134-138):
`jadwal = res1.data[0] if ok1 and res1.data else (res2.data[0] if ok2 and res2.data else None)`. -/
def resolve_danton (ok1 : Bool) (r1 : List Jadwal) (ok2 : Bool)
    (r2 : List Jadwal) : Option Jadwal :=
  if ok1 && !r1.isEmpty then r1.head?
  else if ok2 && !r2.isEmpty then r2.head?
  else none

/-- The danton resolution performed at login, with both queries answered by
the schedule table `db` (transport succeeding). -/
def login_danton (db : List Jadwal) (today : String) (u : UserRec) :
    Option Jadwal :=
  resolve_danton true (schemeOneQuery db today u) true (schemeTwoQuery db today u)

/-- Observable outcome of a successful POST to `/` (main.py lines 99-150):
the session fields written and the redirect target. -/
def login_post (db : List Jadwal) (today : String) (u : UserRec) :
    SessionState × String :=
  match login_danton db today u with
  | some j =>
    (⟨some u.id, u.username, some u.role, u.unit_id, u.id_pegawai,
      true, some j.unit_id⟩, "dashboard_danton")
  | none =>
    (⟨some u.id, u.username, some u.role, u.unit_id, u.id_pegawai,
      false, none⟩,
     if u.role == "admin" then "dashboard_admin" else "dashboard_pegawai")

-- ----------------------------------------------------- schedule maintenance

/-- Leap-year rule of the proleptic Gregorian calendar used by
`datetime.strptime`. -/
def is_leap (y : Nat) : Bool :=
  (y % 4 == 0 && y % 100 != 0) || y % 400 == 0

/-- Number of days in month `m` of year `y`. -/
def days_in_month (y m : Nat) : Nat :=
  if m == 2 then (if is_leap y then 29 else 28)
  else if m == 4 || m == 6 || m == 9 || m == 11 then 30 else 31

/-- Split a character list into the groups separated by the dash character
(the field separators of the `%Y-%m-%d` format). -/
def splitDash : List Char → List (List Char)
  | [] => [[]]
  | c :: cs =>
    let r := splitDash cs
    if c == '-' then [] :: r
    else
      match r with
      | [] => [[c]]
      | g :: gs => (c :: g) :: gs

/-- Parse a nonempty group of decimal digits into a number; any other group
is a parse failure. -/
def digitsToNatAux : List Char → Nat → Option Nat
  | [], acc => some acc
  | c :: cs, acc =>
    if c.isDigit then digitsToNatAux cs (acc * 10 + (c.toNat - 48))
    else none

/-- Parse a digit group, rejecting the empty group. -/
def digitsToNat (cs : List Char) : Option Nat :=
  match cs with
  | [] => none
  | _ => digitsToNatAux cs 0

/-- Embedding of `datetime.strptime(s, "%Y-%m-%d")` restricted to its
observable outcome: either the `(year, month, day)` triple of a valid
calendar date (with the `datetime` year range 1..9999) or a parse failure
(`ValueError`), modelled as `none`. -/
def strptime_ymd (s : String) : Option (Nat × Nat × Nat) :=
  match (splitDash s.toList).map digitsToNat with
  | [some y, some m, some d] =>
    if 1 ≤ y && y ≤ 9999 && 1 ≤ m && m ≤ 12 && 1 ≤ d && d ≤ days_in_month y m
    then some (y, m, d) else none
  | _ => none

/-- Julian day number of the Gregorian date `(y, m, d)` (valid for y ≥ 1);
standard closed form, all intermediate values nonnegative. -/
def jdn (y m d : Nat) : Nat :=
  let a := (14 - m) / 12
  let y2 := y + 4800 - a
  let m2 := m + 12 * a - 3
  d + (153 * m2 + 2) / 5 + 365 * y2 + y2 / 4 - y2 / 100 + y2 / 400 - 32045

/-- Timestamp (seconds since the Unix epoch) of midnight of the calendar day
written in `s`, i.e. the value of `datetime.strptime(s, "%Y-%m-%d")` placed
on the same second-based timeline as `now`. -/
def midnight_epoch (s : String) : Option Int :=
  (strptime_ymd s).map (fun t => 86400 * ((jdn t.1 t.2.1 t.2.2 : Int) - 2440588))

/-- Embedding of the purge loop at the top of `kelola_jadwal`
(main.py lines 233-244): `now` is the current time in seconds; the result is
the list of entry ids for which a delete is issued, plus the date string of
the first unparseable entry if `strptime` raised (which aborts the loop; the
deletes issued before the crash are kept).  A delete is issued for an entry
exactly when `now - entry_midnight > timedelta(hours=24)`, strictly. -/
def purge_expired (now : Int) : List Jadwal → List Nat × Option String
  | [] => ([], none)
  | j :: rest =>
    match midnight_epoch j.tanggal with
    | none => ([], some j.tanggal)
    | some ts =>
      (if now - ts > 86400 then j.id :: (purge_expired now rest).1
       else (purge_expired now rest).1,
       (purge_expired now rest).2)

-- ------------------------------------------------------ attendance recording

/-- Form data of a POST to `/absen-danton`: the `tanggal` field and the
per-employee `status_<id>` / `keterangan_<id>` fields (absent field =
`none`, as returned by `request.form.get`). -/
structure AbsenForm where
  tanggal : Option String
  status : Nat → Option String
  keterangan : Nat → Option String

/-- Payload of one `supabase.table("absensi").insert({...})` call
(main.py lines 211-219). -/
structure AbsensiInsert where
  pegawai_id : Nat
  danton_id : Option Nat
  tanggal : Option String
  status : String
  keterangan : String
  unit_id : Nat
deriving DecidableEq

/-- Python truthiness of an optional form value: `None` and the empty string
are falsy, every other string is truthy (`if not status: continue`). -/
def truthyStr (o : Option String) : Bool :=
  match o with
  | none => false
  | some s => !(s == "")

/-- Embedding of the POST loop of `absen_danton` (main.py lines 200-221).
`insert_fails p` models the raw `insert(...).execute()` call for employee
`p` raising an exception (the call is not wrapped in `safe_execute`).
Result: (ids for which an insert was attempted, successfully inserted
payloads, whether an exception propagated out of the loop).  A raised
insert aborts the loop: employees after it are not processed. -/
def absen_insert_loop (form : AbsenForm) (danton : Option Nat) (unit_id : Nat)
    (insert_fails : Nat → Bool) : List Nat → List Nat × List AbsensiInsert × Bool
  | [] => ([], [], false)
  | p :: rest =>
    match form.status p with
    | none => absen_insert_loop form danton unit_id insert_fails rest
    | some s =>
      if s == "" then absen_insert_loop form danton unit_id insert_fails rest
      else if insert_fails p then ([p], [], true)
      else
        let r := absen_insert_loop form danton unit_id insert_fails rest
        (p :: r.1,
         ⟨p, danton, form.tanggal, s, (form.keterangan p).getD "", unit_id⟩ :: r.2.1,
         r.2.2)

/-- Observable outcome of a POST to `/absen-danton` once the unit check has
passed: the server clock value `serverToday` (main.py line 185) is computed
but feeds only the GET rendering, never the POST inserts. -/
def absen_danton_post (_serverToday : String) (roster : List Nat)
    (form : AbsenForm) (danton : Option Nat) (unit_id : Nat)
    (insert_fails : Nat → Bool) : List Nat × List AbsensiInsert × Bool :=
  absen_insert_loop form danton unit_id insert_fails roster

/-- The date shown by the GET rendering of `/absen-danton`
(main.py lines 185 and 224): the current date of the server clock. -/
def absen_danton_get_tanggal (serverToday : String) : String :=
  serverToday

-- ------------------------------------------------------------ reporting

/-- Row of the `absensi` table as read back by the report and export
handlers. -/
structure Absensi where
  id : Nat
  pegawai_id : Nat
  danton_id : Nat
  tanggal : Option String
  status : String
  unit_id : Option Nat
deriving DecidableEq

/-- Embedding of `ambil_nama` (main.py lines 325-330) and of the identical
comprehension in `rekap_saya` (lines 364-373): the Python `or` chain over
the optional name fields, where `None` and the empty string are falsy. -/
def ambil_nama (u : UserRec) : String :=
  if truthyStr u.nama then u.nama.getD ""
  else if truthyStr u.nama_lengkap then u.nama_lengkap.getD ""
  else if truthyStr u.full_name then u.full_name.getD ""
  else if truthyStr u.username then u.username.getD ""
  else "ID " ++ toString u.id

/-- The dict comprehension over the users list mapping each id to its
resolved display name (main.py line 332). -/
def users_map_of (users : List UserRec) : List (Nat × String) :=
  users.map (fun u => (u.id, ambil_nama u))

/-- Row rendered by the all-attendance report (main.py lines 336-342). -/
structure RekapRow where
  tanggal : Option String
  status : String
  nama_pegawai : String
  nama_danton : String
deriving DecidableEq

/-- Row rendered by the self report (main.py lines 376-381). -/
structure RekapSayaRow where
  tanggal : Option String
  status : String
  nama_danton : String
deriving DecidableEq

/-- One enriched row of the all-attendance report: both ids are resolved
through the users map with the `"ID <id>"` default. -/
def rekap_row (m : List (Nat × String)) (a : Absensi) : RekapRow :=
  ⟨a.tanggal, a.status,
   (dictGet m a.pegawai_id).getD ("ID " ++ toString a.pegawai_id),
   (dictGet m a.danton_id).getD ("ID " ++ toString a.danton_id)⟩

/-- One enriched row of the self report: only the recorder id is resolved. -/
def saya_row (m : List (Nat × String)) (a : Absensi) : RekapSayaRow :=
  ⟨a.tanggal, a.status,
   (dictGet m a.danton_id).getD ("ID " ++ toString a.danton_id)⟩

/-- Result of a page handler: the 403 short-circuit or the rendered data. -/
inductive PageResult (α : Type) where
  | unauthorized
  | page (a : α)
deriving DecidableEq

/-- Embedding of `rekap_absensi_all` (main.py lines 313-344).  The two raw
`execute().data or []` fetches are NOT wrapped in `safe_execute`: an
exception raised by the client propagates out of the handler, which the
`Except` bind reproduces. -/
def rekap_absensi_all (loggedIn : Bool) (role : Option String)
    (fetchAbs : Except String (Option (List Absensi)))
    (fetchUsers : Except String (Option (List UserRec))) :
    Except String (PageResult (List RekapRow)) := do
  if !loggedIn || !(role == some "admin") then
    return PageResult.unauthorized
  let ra ← fetchAbs
  let absensi := ra.getD []
  let ru ← fetchUsers
  let users := ru.getD []
  return PageResult.page (absensi.map (rekap_row (users_map_of users)))

/-- Embedding of `rekap_saya` (main.py lines 347-383); the attendance fetch
is already filtered to the session user by the store-side `eq` filter.  Both
fetches are raw, so client exceptions propagate. -/
def rekap_saya (loggedIn : Bool) (role : Option String)
    (fetchAbs : Except String (Option (List Absensi)))
    (fetchUsers : Except String (Option (List UserRec))) :
    Except String (PageResult (List RekapSayaRow)) := do
  if !loggedIn || !(role == some "pegawai") then
    return PageResult.unauthorized
  let ra ← fetchAbs
  let absensi := ra.getD []
  let ru ← fetchUsers
  let users := ru.getD []
  return PageResult.page (absensi.map (saya_row (users_map_of users)))

-- ------------------------------------------------------------ export

/-- Value of a spreadsheet name cell: either the value found in the batch
lookup map (the possibly-null `nama` column) or, when the id is absent from
the map, the raw id itself (`users_map.get(id, id)`). -/
inductive Cell where
  | name (v : Option String)
  | raw (i : Nat)
deriving DecidableEq

/-- The `users_map.get(a[...], a[...])` lookup of `export_excel`. -/
def cell_for (m : List (Nat × Option String)) (i : Nat) : Cell :=
  match dictGet m i with
  | some v => Cell.name v
  | none => Cell.raw i

/-- One spreadsheet row built by `export_excel` (main.py lines 401-409). -/
structure ExportRow where
  rowId : Nat
  pegawai : Cell
  danton : Cell
  tanggal : Option String
  status : String
deriving DecidableEq

/-- Builds one export row from an attendance record. -/
def export_row (m : List (Nat × Option String)) (a : Absensi) : ExportRow :=
  ⟨a.id, cell_for m a.pegawai_id, cell_for m a.danton_id, a.tanggal, a.status⟩

/-- Observable response of `/export_excel`: 403, the plain "no data" text,
or a file download with its name and tabular content. -/
inductive ExportResult where
  | unauthorized
  | noData (msg : String)
  | file (fname : String) (rows : List ExportRow)
deriving DecidableEq

/-- The distinct employee and recorder ids of the fetched records
(`list(set(...)) + list(set(...))`, main.py lines 397-399); only membership
and emptiness of this list are consumed downstream. -/
def export_ids (absensi : List Absensi) : List Nat :=
  (absensi.map (fun a => a.pegawai_id)).dedup
    ++ (absensi.map (fun a => a.danton_id)).dedup

/-- Embedding of `export_excel` (main.py lines 386-415).  The attendance
fetch is raw (exceptions propagate); the batch name lookup goes through
`get_users_by_ids` and degrades to the empty map. -/
def export_excel (loggedIn : Bool) (role : Option String)
    (fetchAbs : Except String (Option (List Absensi)))
    (usersCall : Except String (Option (SupaRes (List IdNama)))) :
    Except String ExportResult := do
  if !loggedIn || !(role == some "admin") then
    return ExportResult.unauthorized
  let resp ← fetchAbs
  let absensi := resp.getD []
  if absensi.isEmpty then
    return ExportResult.noData "Tidak ada data absensi"
  let users_map := get_users_by_ids usersCall (export_ids absensi)
  return ExportResult.file "rekap_absensi.xlsx" (absensi.map (export_row users_map))

/-- First non-empty entry of a list of optional fields; written from the
spec sentence "the display name is the first present (non-empty) field in
the order nama, nama_lengkap, full_name, username", for comparison with the
code-derived `ambil_nama`. -/
def spec_first_present_nonempty (fields : List (Option String)) : Option String :=
  fields.findSome? (fun o =>
    match o with
    | some s => if s = "" then none else some s
    | none => none)

-- ------------------------------------------------------------ helper lemmas

theorem dictGet_eq_none_of_not_mem {β : Type} (m : List (Nat × β)) (k : Nat)
    (h : k ∉ m.map Prod.fst) : dictGet m k = none := by
  unfold dictGet
  rw [List.find?_eq_none.mpr]
  · rfl
  · intro q hq hbeq
    exact h (by
      simp only [List.mem_map]
      exact ⟨q, List.mem_reverse.mp hq, by simpa using hbeq⟩)

-- ------------------------------------------------------------ claims

/-- C6: `safe_execute` is total over the outcome of its callable: it returns
either a success carrying a response with an extractable data payload or a
failure carrying a message string; it never re-raises, and a non-None
response without an extractable payload becomes a failure with a diagnostic
message. -/
theorem safe_execute_total :
    ∀ (α : Type) (call : Except String (Option (SupaRes α))),
      ((∃ r, safe_execute call = Except.ok r ∧ ∃ d, SupaRes.data r = some d)
        ∨ (∃ msg, safe_execute call = Except.error msg))
      ∧ (∀ r : SupaRes α, SupaRes.data r = none →
          ∃ msg, safe_execute (Except.ok (some r)) = Except.error msg) := by
  intro α call
  constructor
  · match call with
    | .error e => exact Or.inr ⟨_, rfl⟩
    | .ok none => exact Or.inr ⟨_, rfl⟩
    | .ok (some res) =>
      cases h : SupaRes.data res with
      | none =>
        exact Or.inr ⟨"Supabase returned unexpected format.",
          by simp [safe_execute, h]⟩
      | some d => exact Or.inl ⟨res, by simp [safe_execute, h], d, h⟩
  · intro r hr
    exact ⟨"Supabase returned unexpected format.", by simp [safe_execute, hr]⟩

/-- Witness for `safe_execute_total` at a concrete response whose payload is
absent. -/
theorem safe_execute_total_witness :
    ∃ msg, safe_execute (Except.ok (some (SupaRes.obj (none : Option (List Nat)))))
        = Except.error msg :=
  (safe_execute_total (List Nat) (Except.ok (some (SupaRes.obj none)))).2
    (SupaRes.obj none) rfl

/-- C1: at login, scheme 1 (schedule rows matching the primary id of the user)
takes precedence; scheme 2 (rows matching the linked-employee id) decides
only when scheme 1 yields nothing, and yields nothing itself when the user
has no linked-employee id; the first row of the winning scheme is the one
whose unit id is stored in the session. -/
theorem danton_resolution_precedence :
    ∀ (db : List Jadwal) (today : String) (u : UserRec),
      (∀ (j : Jadwal) (t : List Jadwal), schemeOneQuery db today u = j :: t →
        login_danton db today u = some j ∧
        (login_post db today u).1.danton_unit_id = some j.unit_id) ∧
      (schemeOneQuery db today u = [] →
        ∀ (j : Jadwal) (t : List Jadwal), schemeTwoQuery db today u = j :: t →
          login_danton db today u = some j ∧
          (login_post db today u).1.danton_unit_id = some j.unit_id) ∧
      (schemeOneQuery db today u = [] → u.id_pegawai = none →
        login_danton db today u = none) := by
  intro db today u
  refine ⟨?_, ?_, ?_⟩
  · intro j t h1
    have hl : login_danton db today u = some j := by
      unfold login_danton resolve_danton
      rw [h1]; simp
    exact ⟨hl, by simp [login_post, hl]⟩
  · intro h1 j t h2
    have hl : login_danton db today u = some j := by
      unfold login_danton resolve_danton
      rw [h1, h2]; simp
    exact ⟨hl, by simp [login_post, hl]⟩
  · intro h1 hped
    have h2 : schemeTwoQuery db today u = [] := by
      unfold schemeTwoQuery
      rw [hped]
      simp [sql_eq_opt]
    unfold login_danton resolve_danton
    rw [h1, h2]; simp

/-- Witness for `danton_resolution_precedence`: a user whose linked-employee
id (30) matches the schedule row of today while the primary id (7) does not; the
scheme-2 row wins and its unit id (9) lands in the session. -/
theorem danton_resolution_precedence_witness :
    login_danton [⟨5, some 30, 9, "2024-03-10", ""⟩] "2024-03-10"
        ⟨7, none, none, "pegawai", none, some 30, none, none, none⟩
      = some ⟨5, some 30, 9, "2024-03-10", ""⟩ ∧
    (login_post [⟨5, some 30, 9, "2024-03-10", ""⟩] "2024-03-10"
        ⟨7, none, none, "pegawai", none, some 30, none, none, none⟩).1.danton_unit_id
      = some 9 :=
  (danton_resolution_precedence _ _ _).2.1 (by decide)
    ⟨5, some 30, 9, "2024-03-10", ""⟩ [] (by decide)

/-- C8: after authentication, a resolved schedule row routes to the
squad-leader dashboard regardless of the stored role; otherwise the stored
role decides between the admin and employee dashboards. -/
theorem post_login_routing :
    ∀ (db : List Jadwal) (today : String) (u : UserRec),
      (∀ j, login_danton db today u = some j →
        (login_post db today u).2 = "dashboard_danton") ∧
      (login_danton db today u = none → u.role = "admin" →
        (login_post db today u).2 = "dashboard_admin") ∧
      (login_danton db today u = none → u.role ≠ "admin" →
        (login_post db today u).2 = "dashboard_pegawai") := by
  intro db today u
  refine ⟨?_, ?_, ?_⟩
  · intro j h; simp [login_post, h]
  · intro h hr; simp [login_post, h, hr]
  · intro h hr; simp [login_post, h, hr]

/-- Witness for `post_login_routing`: an admin user who is scheduled today
is routed to the squad-leader dashboard, not the admin dashboard. -/
theorem post_login_routing_witness :
    (login_post [⟨5, some 7, 9, "2024-03-10", ""⟩] "2024-03-10"
        ⟨7, none, none, "admin", none, none, none, none, none⟩).2
      = "dashboard_danton" :=
  (post_login_routing _ _ _).1 ⟨5, some 7, 9, "2024-03-10", ""⟩ (by decide)

theorem purge_deletes_mem (now : Int) :
    ∀ (db : List Jadwal), ∀ i ∈ (purge_expired now db).1,
      i ∈ db.map (fun j => j.id) := by
  intro db
  induction db with
  | nil => intro i hi; simp [purge_expired] at hi
  | cons j rest ih =>
    intro i hi
    cases hts : midnight_epoch j.tanggal with
    | none =>
      have h1 : (purge_expired now (j :: rest)).1 = [] := by
        simp only [purge_expired, hts]
      rw [h1] at hi
      simp at hi
    | some ts =>
      have h1 : (purge_expired now (j :: rest)).1
          = if now - ts > 86400 then j.id :: (purge_expired now rest).1
            else (purge_expired now rest).1 := by
        simp only [purge_expired, hts]
      rw [h1] at hi
      simp only [List.map_cons, List.mem_cons]
      by_cases hc : now - ts > 86400
      · rw [if_pos hc] at hi
        rcases List.mem_cons.mp hi with h | h
        · exact Or.inl h
        · exact Or.inr (ih i h)
      · rw [if_neg hc] at hi
        exact Or.inr (ih i hi)

/-- C2: on a visit to the schedule-maintenance page at time `now`, a stored
schedule entry whose date parses to midnight timestamp `ts` has a delete
issued for it exactly when `now - ts` strictly exceeds 24 hours (86400
seconds); an entry exactly at the boundary is retained, and when every date
parses the loop completes without raising. -/
theorem purge_expired_strict_24h :
    ∀ (now : Int) (db : List Jadwal),
      (db.map (fun j => j.id)).Nodup →
      (∀ j ∈ db, (midnight_epoch j.tanggal).isSome) →
      (purge_expired now db).2 = none ∧
      ∀ j ∈ db, ∀ ts, midnight_epoch j.tanggal = some ts →
        (j.id ∈ (purge_expired now db).1 ↔ now - ts > 86400) := by
  intro now db
  induction db with
  | nil =>
    intro _ _
    exact ⟨rfl, by intro j hj; simp at hj⟩
  | cons j0 rest ih =>
    intro hnd hparse
    obtain ⟨ts0, hts0⟩ := Option.isSome_iff_exists.mp
      (hparse j0 (List.mem_cons_self j0 rest))
    have hndr : (rest.map (fun j => j.id)).Nodup := by
      simp only [List.map_cons] at hnd
      exact (List.nodup_cons.mp hnd).2
    have hj0notin : j0.id ∉ rest.map (fun j => j.id) := by
      simp only [List.map_cons] at hnd
      exact (List.nodup_cons.mp hnd).1
    have hparser : ∀ j ∈ rest, (midnight_epoch j.tanggal).isSome :=
      fun j hj => hparse j (List.mem_cons_of_mem _ hj)
    obtain ⟨herr, hiff⟩ := ih hndr hparser
    have h1 : (purge_expired now (j0 :: rest)).1
        = if now - ts0 > 86400 then j0.id :: (purge_expired now rest).1
          else (purge_expired now rest).1 := by
      simp only [purge_expired, hts0]
    have h2 : (purge_expired now (j0 :: rest)).2 = (purge_expired now rest).2 := by
      simp only [purge_expired, hts0]
    constructor
    · rw [h2]; exact herr
    · intro j hj ts hts
      rcases List.mem_cons.mp hj with rfl | hjr
      · obtain rfl : ts0 = ts := by
          rw [hts0] at hts
          exact Option.some.inj hts
        rw [h1]
        by_cases hc : now - ts0 > 86400
        · rw [if_pos hc]
          exact ⟨fun _ => hc, fun _ => List.mem_cons_self _ _⟩
        · rw [if_neg hc]
          exact ⟨fun hmem => absurd (purge_deletes_mem now rest j.id hmem) hj0notin,
                 fun hgt => absurd hgt hc⟩
      · have hne : j.id ≠ j0.id := by
          intro he
          exact hj0notin (he ▸ List.mem_map.mpr ⟨j, hjr, rfl⟩)
        rw [h1]
        by_cases hc : now - ts0 > 86400
        · rw [if_pos hc]
          rw [List.mem_cons]
          constructor
          · intro h
            rcases h with h | h
            · exact absurd h hne
            · exact (hiff j hjr ts hts).mp h
          · intro h
            exact Or.inr ((hiff j hjr ts hts).mpr h)
        · rw [if_neg hc]
          exact hiff j hjr ts hts

/-- Witness for `purge_expired_strict_24h`: at `now` = midnight of
2024-03-11, the entry dated 2024-03-10 sits exactly at the 24-hour boundary
and is retained (both sides of the equivalence are false), and the loop
raises nothing. -/
theorem purge_expired_strict_24h_witness :
    ((1 : Nat) ∈ (purge_expired 1710115200 [⟨1, some 30, 9, "2024-03-10", ""⟩]).1 ↔
      (1710115200 : Int) - 1710028800 > 86400) ∧
    (purge_expired 1710115200 [⟨1, some 30, 9, "2024-03-10", ""⟩]).2 = none := by
  constructor
  · exact (purge_expired_strict_24h 1710115200 _ (by decide) (by decide)).2
      ⟨1, some 30, 9, "2024-03-10", ""⟩ (by decide) 1710028800 (by decide)
  · exact (purge_expired_strict_24h 1710115200 _ (by decide) (by decide)).1

theorem absen_loop_mem (form : AbsenForm) (danton : Option Nat) (unit_id : Nat)
    (fails : Nat → Bool) :
    ∀ (roster : List Nat),
      ∀ r ∈ (absen_insert_loop form danton unit_id fails roster).2.1,
        r.pegawai_id ∈ roster := by
  intro roster
  induction roster with
  | nil => intro r hr; simp [absen_insert_loop] at hr
  | cons p rest ih =>
    intro r hr
    cases hs : form.status p with
    | none =>
      have h1 : (absen_insert_loop form danton unit_id fails (p :: rest)).2.1
          = (absen_insert_loop form danton unit_id fails rest).2.1 := by
        simp [absen_insert_loop, hs]
      rw [h1] at hr
      exact List.mem_cons_of_mem _ (ih r hr)
    | some s =>
      cases hse : (s == "") with
      | true =>
        have h1 : (absen_insert_loop form danton unit_id fails (p :: rest)).2.1
            = (absen_insert_loop form danton unit_id fails rest).2.1 := by
          simp [absen_insert_loop, hs, hse]
        rw [h1] at hr
        exact List.mem_cons_of_mem _ (ih r hr)
      | false =>
        cases hf : fails p with
        | true =>
          have h1 : (absen_insert_loop form danton unit_id fails (p :: rest)).2.1
              = [] := by
            simp [absen_insert_loop, hs, hse, hf]
          rw [h1] at hr
          simp at hr
        | false =>
          have h1 : (absen_insert_loop form danton unit_id fails (p :: rest)).2.1
              = ⟨p, danton, form.tanggal, s, (form.keterangan p).getD "", unit_id⟩
                :: (absen_insert_loop form danton unit_id fails rest).2.1 := by
            simp [absen_insert_loop, hs, hse, hf]
          rw [h1] at hr
          rcases List.mem_cons.mp hr with rfl | hr2
          · exact List.mem_cons_self _ _
          · exact List.mem_cons_of_mem _ (ih r hr2)

theorem absen_loop_count_zero (form : AbsenForm) (danton : Option Nat)
    (unit_id : Nat) (fails : Nat → Bool) (roster : List Nat) (p : Nat)
    (hp : p ∉ roster) :
    (absen_insert_loop form danton unit_id fails roster).2.1.countP
      (fun r => r.pegawai_id == p) = 0 := by
  rw [List.countP_eq_zero]
  intro r hr hbeq
  exact hp (by
    have : r.pegawai_id = p := by simpa using hbeq
    exact this ▸ absen_loop_mem form danton unit_id fails roster r hr)

/-- C3: a POST to the attendance route inserts exactly one record per roster
employee whose submitted status is non-empty, zero records for an employee
whose status is missing or empty, and (absent insert failures) the loop
finishes without raising. -/
theorem absen_records_per_employee :
    ∀ (roster : List Nat) (form : AbsenForm) (danton : Option Nat)
      (unit_id : Nat),
      roster.Nodup →
      ((absen_insert_loop form danton unit_id (fun _ => false) roster).2.2
        = false) ∧
      ∀ p ∈ roster,
        ((absen_insert_loop form danton unit_id (fun _ => false) roster).2.1.countP
            (fun r => r.pegawai_id == p))
          = if truthyStr (form.status p) then 1 else 0 := by
  intro roster form danton unit_id
  induction roster with
  | nil =>
    intro _
    exact ⟨rfl, by intro p hp; simp at hp⟩
  | cons p0 rest ih =>
    intro hnd
    obtain ⟨hp0, hndr⟩ := List.nodup_cons.mp hnd
    obtain ⟨ihe, ihc⟩ := ih hndr
    cases hs : form.status p0 with
    | none =>
      have h1 : (absen_insert_loop form danton unit_id (fun _ => false) (p0 :: rest))
          = absen_insert_loop form danton unit_id (fun _ => false) rest := by
        simp [absen_insert_loop, hs]
      rw [h1]
      refine ⟨ihe, ?_⟩
      intro p hp
      rcases List.mem_cons.mp hp with rfl | hpr
      · rw [absen_loop_count_zero form danton unit_id _ rest p hp0]
        simp [truthyStr, hs]
      · exact ihc p hpr
    | some s =>
      cases hse : (s == "") with
      | true =>
        have h1 : (absen_insert_loop form danton unit_id (fun _ => false) (p0 :: rest))
            = absen_insert_loop form danton unit_id (fun _ => false) rest := by
          simp [absen_insert_loop, hs, hse]
        rw [h1]
        refine ⟨ihe, ?_⟩
        intro p hp
        rcases List.mem_cons.mp hp with rfl | hpr
        · rw [absen_loop_count_zero form danton unit_id _ rest p hp0]
          simp [truthyStr, hs, hse]
        · exact ihc p hpr
      | false =>
        have h1 : (absen_insert_loop form danton unit_id (fun _ => false) (p0 :: rest)).2.1
            = ⟨p0, danton, form.tanggal, s, (form.keterangan p0).getD "", unit_id⟩
              :: (absen_insert_loop form danton unit_id (fun _ => false) rest).2.1 := by
          simp [absen_insert_loop, hs, hse]
        have h2 : (absen_insert_loop form danton unit_id (fun _ => false) (p0 :: rest)).2.2
            = (absen_insert_loop form danton unit_id (fun _ => false) rest).2.2 := by
          simp [absen_insert_loop, hs, hse]
        refine ⟨by rw [h2]; exact ihe, ?_⟩
        intro p hp
        rcases List.mem_cons.mp hp with rfl | hpr
        · rw [h1, List.countP_cons_of_pos _ _ (by simp)]
          rw [absen_loop_count_zero form danton unit_id _ rest p hp0]
          simp [truthyStr, hs, hse]
        · have hne : p0 ≠ p := fun he => hp0 (he ▸ hpr)
          rw [h1, List.countP_cons_of_neg _ _ (by simp [hne])]
          exact ihc p hpr

/-- Witness for `absen_records_per_employee`: roster of two employees, one
with a submitted status and one with an empty one. -/
theorem absen_records_per_employee_witness :
    ((absen_insert_loop
        (AbsenForm.mk (some "2024-03-10")
          (fun k => if k == 1 then some "hadir" else some "")
          (fun _ => none))
        (some 9) 5 (fun _ => false) [1, 2]).2.1.countP
      (fun r => r.pegawai_id == 1)) = 1 ∧
    ((absen_insert_loop
        (AbsenForm.mk (some "2024-03-10")
          (fun k => if k == 1 then some "hadir" else some "")
          (fun _ => none))
        (some 9) 5 (fun _ => false) [1, 2]).2.1.countP
      (fun r => r.pegawai_id == 2)) = 0 := by
  constructor
  · have h := (absen_records_per_employee [1, 2]
      (AbsenForm.mk (some "2024-03-10")
        (fun k => if k == 1 then some "hadir" else some "")
        (fun _ => none)) (some 9) 5 (by decide)).2 1 (by decide)
    exact h.trans (by decide)
  · have h := (absen_records_per_employee [1, 2]
      (AbsenForm.mk (some "2024-03-10")
        (fun k => if k == 1 then some "hadir" else some "")
        (fun _ => none)) (some 9) 5 (by decide)).2 2 (by decide)
    exact h.trans (by decide)

/-- Concrete form data used to exercise the failing-insert behaviour of the
attendance loop: every employee has the non-empty status "hadir". -/
def formC5 : AbsenForm :=
  AbsenForm.mk (some "2024-03-11") (fun _ => some "hadir") (fun _ => none)

/-- Counterexample to C5 as stated: with roster `[1, 2]` and the insert for
employee 1 raising, the loop attempts only employee 1 — the insert for the
remaining employee 2 is NOT attempted, and the exception propagates. -/
theorem absen_insert_failure_aborts :
    (absen_insert_loop formC5 (some 9) 5 (fun n => n == 1) [1, 2]).1 = [1] ∧
    (2 : Nat) ∉ (absen_insert_loop formC5 (some 9) 5 (fun n => n == 1) [1, 2]).1 ∧
    (absen_insert_loop formC5 (some 9) 5 (fun n => n == 1) [1, 2]).2.2 = true := by
  refine ⟨rfl, ?_, rfl⟩
  decide

/-- C5 amended: roster employees are processed in order; the first failing
insert raises an exception that aborts the loop, so the employees after it
are not attempted, while the records inserted before the failure are kept
(not rolled back). -/
theorem absen_insert_failure_amended :
    ∀ (l1 : List Nat) (p : Nat) (l2 : List Nat) (form : AbsenForm)
      (danton : Option Nat) (unit_id : Nat) (fails : Nat → Bool),
      (∀ q ∈ l1, fails q = false) → truthyStr (form.status p) = true →
      fails p = true →
      absen_insert_loop form danton unit_id fails (l1 ++ p :: l2)
        = ((absen_insert_loop form danton unit_id fails l1).1 ++ [p],
           (absen_insert_loop form danton unit_id fails l1).2.1,
           true) := by
  intro l1 p l2 form danton unit_id fails
  induction l1 with
  | nil =>
    intro _ htr hfp
    cases hs : form.status p with
    | none => rw [hs] at htr; simp [truthyStr] at htr
    | some s =>
      have hse : (s == "") = false := by
        rw [hs] at htr
        simpa [truthyStr] using htr
      simp [absen_insert_loop, hs, hse, hfp]
  | cons q l1x ih =>
    intro hok htr hfp
    have hfq : fails q = false := hok q (List.mem_cons_self _ _)
    have ihx := ih (fun x hx => hok x (List.mem_cons_of_mem _ hx)) htr hfp
    cases hs : form.status q with
    | none =>
      have hL : absen_insert_loop form danton unit_id fails ((q :: l1x) ++ p :: l2)
          = absen_insert_loop form danton unit_id fails (l1x ++ p :: l2) := by
        simp [absen_insert_loop, hs]
      have hR : absen_insert_loop form danton unit_id fails (q :: l1x)
          = absen_insert_loop form danton unit_id fails l1x := by
        simp [absen_insert_loop, hs]
      rw [hL, hR, ihx]
    | some s =>
      cases hse : (s == "") with
      | true =>
        have hL : absen_insert_loop form danton unit_id fails ((q :: l1x) ++ p :: l2)
            = absen_insert_loop form danton unit_id fails (l1x ++ p :: l2) := by
          simp [absen_insert_loop, hs, hse]
        have hR : absen_insert_loop form danton unit_id fails (q :: l1x)
            = absen_insert_loop form danton unit_id fails l1x := by
          simp [absen_insert_loop, hs, hse]
        rw [hL, hR, ihx]
      | false =>
        have hL : absen_insert_loop form danton unit_id fails ((q :: l1x) ++ p :: l2)
            = (q :: (absen_insert_loop form danton unit_id fails (l1x ++ p :: l2)).1,
               ⟨q, danton, form.tanggal, s, (form.keterangan q).getD "", unit_id⟩
                 :: (absen_insert_loop form danton unit_id fails (l1x ++ p :: l2)).2.1,
               (absen_insert_loop form danton unit_id fails (l1x ++ p :: l2)).2.2) := by
          simp [absen_insert_loop, hs, hse, hfq]
        have hR : absen_insert_loop form danton unit_id fails (q :: l1x)
            = (q :: (absen_insert_loop form danton unit_id fails l1x).1,
               ⟨q, danton, form.tanggal, s, (form.keterangan q).getD "", unit_id⟩
                 :: (absen_insert_loop form danton unit_id fails l1x).2.1,
               (absen_insert_loop form danton unit_id fails l1x).2.2) := by
          simp [absen_insert_loop, hs, hse, hfq]
        rw [hL, hR, ihx]
        simp

/-- Witness for `absen_insert_failure_amended`: employee 2 succeeds, then
employee 1 fails, and employee 3 is never reached. -/
theorem absen_insert_failure_amended_witness :
    absen_insert_loop formC5 (some 9) 5 (fun n => n == 1) ([2] ++ 1 :: [3])
      = ((absen_insert_loop formC5 (some 9) 5 (fun n => n == 1) [2]).1 ++ [1],
         (absen_insert_loop formC5 (some 9) 5 (fun n => n == 1) [2]).2.1,
         true) :=
  absen_insert_failure_amended [2] 1 [3] formC5 (some 9) 5 (fun n => n == 1)
    (by decide) (by decide) (by decide)

theorem absen_loop_tanggal (form : AbsenForm) (danton : Option Nat)
    (unit_id : Nat) (fails : Nat → Bool) :
    ∀ (roster : List Nat),
      ∀ r ∈ (absen_insert_loop form danton unit_id fails roster).2.1,
        r.tanggal = form.tanggal := by
  intro roster
  induction roster with
  | nil => intro r hr; simp [absen_insert_loop] at hr
  | cons p rest ih =>
    intro r hr
    cases hs : form.status p with
    | none =>
      have h1 : (absen_insert_loop form danton unit_id fails (p :: rest)).2.1
          = (absen_insert_loop form danton unit_id fails rest).2.1 := by
        simp [absen_insert_loop, hs]
      rw [h1] at hr
      exact ih r hr
    | some s =>
      cases hse : (s == "") with
      | true =>
        have h1 : (absen_insert_loop form danton unit_id fails (p :: rest)).2.1
            = (absen_insert_loop form danton unit_id fails rest).2.1 := by
          simp [absen_insert_loop, hs, hse]
        rw [h1] at hr
        exact ih r hr
      | false =>
        cases hf : fails p with
        | true =>
          have h1 : (absen_insert_loop form danton unit_id fails (p :: rest)).2.1
              = [] := by
            simp [absen_insert_loop, hs, hse, hf]
          rw [h1] at hr
          simp at hr
        | false =>
          have h1 : (absen_insert_loop form danton unit_id fails (p :: rest)).2.1
              = ⟨p, danton, form.tanggal, s, (form.keterangan p).getD "", unit_id⟩
                :: (absen_insert_loop form danton unit_id fails rest).2.1 := by
            simp [absen_insert_loop, hs, hse, hf]
          rw [h1] at hr
          rcases List.mem_cons.mp hr with rfl | hr2
          · rfl
          · exact ih r hr2

/-- C10: every attendance record inserted by a POST carries the
client-submitted `tanggal` form field verbatim; the server clock argument
does not influence the POST outcome at all, and is only echoed by the GET
rendering. -/
theorem absen_tanggal_from_form :
    ∀ (t : String) (roster : List Nat) (form : AbsenForm)
      (danton : Option Nat) (unit_id : Nat) (fails : Nat → Bool),
      (∀ r ∈ (absen_danton_post t roster form danton unit_id fails).2.1,
        r.tanggal = form.tanggal) ∧
      (∀ t2 : String, absen_danton_post t roster form danton unit_id fails
          = absen_danton_post t2 roster form danton unit_id fails) ∧
      absen_danton_get_tanggal t = t := by
  intro t roster form danton unit_id fails
  exact ⟨fun r hr => absen_loop_tanggal form danton unit_id fails roster r hr,
         fun t2 => rfl, rfl⟩

/-- Witness for `absen_tanggal_from_form`: the record created for employee 1
carries the posted date 2019-05-05, not the server date 2024-03-10. -/
theorem absen_tanggal_from_form_witness :
    (AbsensiInsert.mk 1 (some 9) (some "2019-05-05") "hadir" "" 5).tanggal
      = (AbsenForm.mk (some "2019-05-05") (fun _ => some "hadir")
          (fun _ => none)).tanggal :=
  (absen_tanggal_from_form "2024-03-10" [1]
      (AbsenForm.mk (some "2019-05-05") (fun _ => some "hadir") (fun _ => none))
      (some 9) 5 (fun _ => false)).1
    (AbsensiInsert.mk 1 (some 9) (some "2019-05-05") "hadir" "" 5) (by decide)

/-- C7: the display name of a user record is the first present non-empty
field in the order nama, nama_lengkap, full_name, username, with the
synthetic placeholder as final fallback; and in both report handlers, an
attendance record whose employee or recorder id matches no user renders the
placeholder built from the raw id. -/
theorem name_resolution_fallback :
    (∀ u : UserRec,
      ambil_nama u = (spec_first_present_nonempty
          [u.nama, u.nama_lengkap, u.full_name, u.username]).getD
        ("ID " ++ toString u.id)) ∧
    (∀ (users : List UserRec) (a : Absensi),
      (a.pegawai_id ∉ users.map (fun v => v.id) →
        (rekap_row (users_map_of users) a).nama_pegawai
          = "ID " ++ toString a.pegawai_id) ∧
      (a.danton_id ∉ users.map (fun v => v.id) →
        (rekap_row (users_map_of users) a).nama_danton
          = "ID " ++ toString a.danton_id) ∧
      (a.danton_id ∉ users.map (fun v => v.id) →
        (saya_row (users_map_of users) a).nama_danton
          = "ID " ++ toString a.danton_id)) := by
  constructor
  · intro u
    rcases u with ⟨id, un, pw, role, unit, idp, nm, nl, fn⟩
    simp only [ambil_nama, spec_first_present_nonempty, truthyStr]
    rcases nm with _ | s1 <;> rcases nl with _ | s2 <;>
      rcases fn with _ | s3 <;> rcases un with _ | s4 <;>
        simp [List.findSome?] <;> split_ifs <;> simp_all
  · intro users a
    have hmap : ∀ i : Nat, i ∉ users.map (fun v => v.id) →
        dictGet (users_map_of users) i = none := by
      intro i hi
      apply dictGet_eq_none_of_not_mem
      intro hmem
      apply hi
      simp only [users_map_of, List.map_map] at hmem
      simpa using hmem
    refine ⟨fun h => ?_, fun h => ?_, fun h => ?_⟩ <;>
      simp [rekap_row, saya_row, hmap _ h]

/-- Witness for `name_resolution_fallback`: employee id 10 matches no user,
so the all-attendance report renders the raw-id placeholder. -/
theorem name_resolution_fallback_witness :
    (rekap_row
        (users_map_of [⟨3, some "alice", none, "admin", none, none,
          none, none, none⟩])
        ⟨1, 10, 20, some "2024-03-10", "hadir", none⟩).nama_pegawai
      = "ID 10" :=
  (name_resolution_fallback.2
      [⟨3, some "alice", none, "admin", none, none, none, none, none⟩]
      ⟨1, 10, 20, some "2024-03-10", "hadir", none⟩).1 (by decide)

/-- Counterexample to C4: the all-attendance report fetches the attendance
rows with a raw `execute()` call (main.py line 319), so a transport
exception propagates out of the handler instead of degrading gracefully. -/
theorem rekap_all_propagates_transport_error :
    rekap_absensi_all true (some "admin") (Except.error "ConnectionError")
        (Except.ok (some []))
      = Except.error "ConnectionError" := rfl

/-- C4 amended: only the calls routed through `safe_execute` (the login and
schedule queries, the `fetch_list` pattern, and the batch name lookup)
degrade gracefully on a transport failure; the attendance report, the self
report, and the export fetch call the store client directly and propagate
the exception out of the handler. -/
theorem adapter_coverage_amended :
    ∀ e : String,
      (∀ ids : List Nat, get_users_by_ids (Except.error e) ids = []) ∧
      (∀ α : Type,
        fetch_list (Except.error e : Except String (Option (SupaRes (List α))))
          = []) ∧
      (∀ fu, rekap_absensi_all true (some "admin") (Except.error e) fu
          = Except.error e) ∧
      (∀ fu, rekap_saya true (some "pegawai") (Except.error e) fu
          = Except.error e) ∧
      (∀ uc, export_excel true (some "admin") (Except.error e) uc
          = Except.error e) := by
  intro e
  refine ⟨?_, ?_, fun fu => rfl, fun fu => rfl, fun uc => rfl⟩
  · intro ids
    cases ids with
    | nil => rfl
    | cons a l => rfl
  · intro α
    rfl

/-- C9: with an admin session and a successful fetch, the export responds
with the plain no-data message exactly when there are no attendance records;
otherwise it returns the spreadsheet named rekap_absensi.xlsx with one row
per record, and an id absent from the batch name lookup falls back to the
raw id in its cell. -/
theorem export_excel_behavior :
    ∀ (absensi : List Absensi)
      (usersCall : Except String (Option (SupaRes (List IdNama)))),
      (export_excel true (some "admin") (Except.ok (some absensi)) usersCall
          = Except.ok (ExportResult.noData "Tidak ada data absensi")
        ↔ absensi = []) ∧
      (absensi ≠ [] →
        export_excel true (some "admin") (Except.ok (some absensi)) usersCall
          = Except.ok (ExportResult.file "rekap_absensi.xlsx"
              (absensi.map
                (export_row (get_users_by_ids usersCall (export_ids absensi)))))
        ∧ (absensi.map
              (export_row (get_users_by_ids usersCall (export_ids absensi)))).length
            = absensi.length) ∧
      (∀ (m : List (Nat × Option String)) (i : Nat),
        i ∉ m.map Prod.fst → cell_for m i = Cell.raw i) := by
  intro absensi usersCall
  refine ⟨?_, ?_, ?_⟩
  · cases absensi with
    | nil =>
      have h : export_excel true (some "admin")
          (Except.ok (some ([] : List Absensi))) usersCall
          = Except.ok (ExportResult.noData "Tidak ada data absensi") := rfl
      rw [h]
      simp
    | cons a l =>
      have h : export_excel true (some "admin")
          (Except.ok (some (a :: l))) usersCall
          = Except.ok (ExportResult.file "rekap_absensi.xlsx"
              ((a :: l).map
                (export_row (get_users_by_ids usersCall (export_ids (a :: l)))))) := rfl
      rw [h]
      simp
  · intro hne
    cases absensi with
    | nil => exact absurd rfl hne
    | cons a l => exact ⟨rfl, by simp⟩
  · intro m i him
    unfold cell_for
    rw [dictGet_eq_none_of_not_mem m i him]

/-- Witness for `export_excel_behavior`: a single record whose employee and
recorder ids resolve to nothing (the batch lookup call fails, yielding the
empty map), so both cells carry the raw ids and the download is the named
spreadsheet with exactly one row. -/
theorem export_excel_behavior_witness :
    export_excel true (some "admin")
        (Except.ok (some [⟨1, 10, 20, some "2024-03-10", "hadir", none⟩]))
        (Except.error "ConnectionError")
      = Except.ok (ExportResult.file "rekap_absensi.xlsx"
          [⟨1, Cell.raw 10, Cell.raw 20, some "2024-03-10", "hadir"⟩]) ∧
    cell_for [] 10 = Cell.raw 10 := by
  constructor
  · have h := ((export_excel_behavior
        [⟨1, 10, 20, some "2024-03-10", "hadir", none⟩]
        (Except.error "ConnectionError")).2.1 (by decide)).1
    exact h.trans (by rfl)
  · exact (export_excel_behavior [] (Except.error "x")).2.2 [] 10 (by decide)
